import Mathlib

/-!
Shallow embedding of the ticket-analytics endpoint (`GET /api/analyze`).

Timestamps are parsed instants in integer milliseconds since the epoch;
`none` models a timestamp string that fails to parse (an invalid JS
`Date`, i.e. `NaN`).  Exact rational arithmetic (`ℚ`) models the
percentage and average computations; `Option` models `NaN` propagation
through the duration arithmetic.  JS object key iteration is modelled as
first-insertion order, which is the JS semantics for the non-numeric
string keys (status, priority, type and satisfaction labels) that occur
in this endpoint.
-/

/-- A support-ticket record, as consumed by the analytics endpoint.
`created`/`updated`/`due` are the parsed timestamps (`none` models an
unparseable timestamp string); `satisfaction_rating` is the optional
rating score (`none` models a record with no `satisfaction_rating`
object). -/
structure Issue where
  id : Nat
  created : Option Int
  updated : Option Int
  due : Option Int
  status : String
  priority : String
  type : String
  satisfaction_rating : Option String
deriving Repr, DecidableEq

/-- ASCII lowercasing, modelling `String.prototype.toLowerCase` on the
category labels this endpoint compares. -/
def jsToLower (s : String) : String := ⟨s.data.map Char.toLower⟩

/-- JS `<=` on `Date` values: any comparison against an invalid date
(`NaN`) is false. -/
def jsLe : Option Int → Option Int → Bool
  | some a, some b => a ≤ b
  | _, _ => false

/-- JS `>` on `Date`/number values: any comparison involving `NaN` is
false. -/
def jsGt : Option Int → Option Int → Bool
  | some a, some b => b < a
  | _, _ => false

/-- JS `+` on numbers where `NaN` (modelled by `none`) absorbs. -/
def jsAdd : Option Int → Option Int → Option Int
  | some a, some b => some (a + b)
  | _, _ => none

/-- `Math.round (q * 100) / 100`: round to 2 decimal places, halves
rounded up (`Math.round x = ⌊x + 1/2⌋`). -/
def jsRound2 (q : ℚ) : ℚ := (⌊q * 100 + 1 / 2⌋ : ℚ) / 100

/-- The six status counters of step 1 of the endpoint. -/
structure StatusCounts where
  «open» : Nat
  closed : Nat
  pending : Nat
  hold : Nat
  solved : Nat
  «new» : Nat
deriving Repr, DecidableEq

/-- One step of the `issues.forEach` if/else-if chain that increments the
status counters. -/
def bumpStatus (c : StatusCounts) (i : Issue) : StatusCounts :=
  let status := jsToLower i.status
  if status = "open" then { c with «open» := c.«open» + 1 }
  else if status = "closed" then { c with closed := c.closed + 1 }
  else if status = "pending" then { c with pending := c.pending + 1 }
  else if status = "hold" then { c with hold := c.hold + 1 }
  else if status = "solved" then { c with solved := c.solved + 1 }
  else if status = "new" then { c with «new» := c.«new» + 1 }
  else c

/-- The status counters accumulated over the whole input sequence. -/
def statusCounts (issues : List Issue) : StatusCounts :=
  issues.foldl bumpStatus ⟨0, 0, 0, 0, 0, 0⟩

/-- `statusBreakdown` section of the report: the six counts plus their
percentages of `totalIssues`. -/
structure StatusBreakdown where
  «open» : Nat
  closed : Nat
  pending : Nat
  hold : Nat
  solved : Nat
  «new» : Nat
  openPercent : ℚ
  closedPercent : ℚ
  pendingPercent : ℚ
  holdPercent : ℚ
  solvedPercent : ℚ
  newPercent : ℚ
deriving Repr, DecidableEq

/-- Assembles the `statusBreakdown` object (`(count / totalIssues) * 100`,
unrounded).  The endpoint only reaches this code with a non-empty input
sequence, so `totalIssues > 0`. -/
def statusBreakdown (issues : List Issue) : StatusBreakdown :=
  let c := statusCounts issues
  let totalIssues : ℚ := issues.length
  { «open» := c.«open», closed := c.closed, pending := c.pending,
    hold := c.hold, solved := c.solved, «new» := c.«new»,
    openPercent := (c.«open» : ℚ) / totalIssues * 100,
    closedPercent := (c.closed : ℚ) / totalIssues * 100,
    pendingPercent := (c.pending : ℚ) / totalIssues * 100,
    holdPercent := (c.hold : ℚ) / totalIssues * 100,
    solvedPercent := (c.solved : ℚ) / totalIssues * 100,
    newPercent := (c.«new» : ℚ) / totalIssues * 100 }

/-- The three priority counters of step 2 of the endpoint. -/
structure PriorityCounts where
  high : Nat
  normal : Nat
  low : Nat
deriving Repr, DecidableEq

/-- One step of the `issues.forEach` chain incrementing the priority
counters. -/
def bumpPriority (c : PriorityCounts) (i : Issue) : PriorityCounts :=
  let priority := jsToLower i.priority
  if priority = "high" then { c with high := c.high + 1 }
  else if priority = "normal" then { c with normal := c.normal + 1 }
  else if priority = "low" then { c with low := c.low + 1 }
  else c

/-- The priority counters accumulated over the whole input sequence. -/
def priorityCounts (issues : List Issue) : PriorityCounts :=
  issues.foldl bumpPriority ⟨0, 0, 0⟩

/-- `priorityBreakdown` section of the report. -/
structure PriorityBreakdown where
  high : Nat
  normal : Nat
  low : Nat
  highPercent : ℚ
  normalPercent : ℚ
  lowPercent : ℚ
deriving Repr, DecidableEq

/-- Assembles the `priorityBreakdown` object. -/
def priorityBreakdown (issues : List Issue) : PriorityBreakdown :=
  let c := priorityCounts issues
  let totalIssues : ℚ := issues.length
  { high := c.high, normal := c.normal, low := c.low,
    highPercent := (c.high : ℚ) / totalIssues * 100,
    normalPercent := (c.normal : ℚ) / totalIssues * 100,
    lowPercent := (c.low : ℚ) / totalIssues * 100 }

/-- Outcome of the timeliness if/else-if chain for a single record: each
record falls into exactly one of these cases. -/
inductive TimelinessCase where
  | onTime
  | overdue
  | currentlyOverdue
  | uncounted
deriving Repr, DecidableEq

/-- The step-3 `issues.forEach` branch structure: resolved records
(`closed`/`solved`) are compared `updated <= due`; recognized unresolved
records (`open`/`pending`/`hold`/`new`) are compared `now > due`; any
other status increments no counter. -/
def classifyTimeliness (now : Int) (i : Issue) : TimelinessCase :=
  let status := jsToLower i.status
  if status = "closed" ∨ status = "solved" then
    if jsLe i.updated i.due then .onTime else .overdue
  else if status = "open" ∨ status = "pending" ∨ status = "hold" ∨ status = "new" then
    if jsGt (some now) i.due then .currentlyOverdue else .uncounted
  else .uncounted

/-- The `onTime` counter of step 3. -/
def onTimeCount (now : Int) (issues : List Issue) : Nat :=
  issues.countP (fun i => classifyTimeliness now i = .onTime)

/-- The `overdue` counter of step 3. -/
def overdueCount (now : Int) (issues : List Issue) : Nat :=
  issues.countP (fun i => classifyTimeliness now i = .overdue)

/-- The `currentlyOverdue` counter of step 3. -/
def currentlyOverdueCount (now : Int) (issues : List Issue) : Nat :=
  issues.countP (fun i => classifyTimeliness now i = .currentlyOverdue)

/-- `resolutionTimeliness` section of the report. -/
structure ResolutionTimeliness where
  onTime : Nat
  overdue : Nat
  currentlyOverdue : Nat
  onTimePercent : ℚ
  overduePercent : ℚ
  currentlyOverduePercent : ℚ
deriving Repr, DecidableEq

/-- Assembles the `resolutionTimeliness` object; the resolved-subset
percentages are guarded by `totalResolved > 0`, the currently-overdue
percentage by `totalIssues > 0`, each yielding `0` otherwise. -/
def resolutionTimeliness (now : Int) (issues : List Issue) : ResolutionTimeliness :=
  let onTime := onTimeCount now issues
  let overdue := overdueCount now issues
  let currentlyOverdue := currentlyOverdueCount now issues
  let totalResolved := onTime + overdue
  { onTime := onTime, overdue := overdue, currentlyOverdue := currentlyOverdue,
    onTimePercent := if 0 < totalResolved then (onTime : ℚ) / totalResolved * 100 else 0,
    overduePercent := if 0 < totalResolved then (overdue : ℚ) / totalResolved * 100 else 0,
    currentlyOverduePercent :=
      if 0 < issues.length then (currentlyOverdue : ℚ) / issues.length * 100 else 0 }

/-- Step 4 filter: records whose priority is `high` (case-insensitive)
and whose status is `closed` or `solved`. -/
def highPriorityClosed (issues : List Issue) : List Issue :=
  issues.filter (fun i =>
    jsToLower i.priority = "high" ∧
      (jsToLower i.status = "closed" ∨ jsToLower i.status = "solved"))

/-- `updatedDate.getTime() - createdDate.getTime()` for one record;
`none` models the `NaN` produced when either timestamp is unparseable. -/
def timeDiffMs (i : Issue) : Option Int :=
  match i.updated, i.created with
  | some u, some c => some (u - c)
  | _, _ => none

/-- The `totalTimeToClose` accumulator: sum of the filtered records'
durations, with `NaN` absorbing. -/
def totalTimeToClose (issues : List Issue) : Option Int :=
  (highPriorityClosed issues).foldl (fun acc i => jsAdd acc (timeDiffMs i)) (some 0)

/-- The `timeToCloseArray`: each filtered record paired with its duration
in milliseconds. -/
def timeToCloseArray (issues : List Issue) : List (Issue × Option Int) :=
  (highPriorityClosed issues).map (fun i => (i, timeDiffMs i))

/-- `averageTimeToCloseMs`: `totalTimeToClose / length` when the filtered
set is non-empty, `0` otherwise.  `none` models `NaN`. -/
def averageTimeToCloseMs (issues : List Issue) : Option ℚ :=
  if 0 < (highPriorityClosed issues).length then
    (totalTimeToClose issues).map (fun t => (t : ℚ) / (highPriorityClosed issues).length)
  else some 0

/-- `highPriorityAnalysis` section of the report; the averages are
`Option ℚ` so that a `NaN` average is representable as `none`. -/
structure HighPriorityAnalysis where
  averageTimeToCloseHours : Option ℚ
  averageTimeToCloseDays : Option ℚ
  totalClosedHighPriority : Nat
deriving Repr, DecidableEq

/-- Assembles the `highPriorityAnalysis` object: average milliseconds
converted to hours (`/ 3,600,000`), then days (`/ 24`), each rounded to
2 decimal places. -/
def highPriorityAnalysis (issues : List Issue) : HighPriorityAnalysis :=
  let avgMs := averageTimeToCloseMs issues
  let avgHours := avgMs.map (fun q => q / (1000 * 60 * 60))
  let avgDays := avgHours.map (fun q => q / 24)
  { averageTimeToCloseHours := avgHours.map jsRound2,
    averageTimeToCloseDays := avgDays.map jsRound2,
    totalClosedHighPriority := (highPriorityClosed issues).length }

/-- The step-5 reducer on a non-null accumulator: the current entry
replaces the longest seen so far only when its `timeMs` is strictly
greater (`current.timeMs > longest.timeMs`). -/
def longerOf (longest current : Issue × Option Int) : Issue × Option Int :=
  if jsGt current.2 longest.2 then current else longest

/-- The `timeToCloseArray.reduce` of step 5: linear scan keeping the
entry with strictly greater `timeMs`, starting from `null`. -/
def longestEntry (issues : List Issue) : Option (Issue × Option Int) :=
  (timeToCloseArray issues).foldl
    (fun longest current =>
      match longest with
      | none => some current
      | some l => some (longerOf l current))
    none

/-- The satisfaction score of a record when present and non-empty, the
JS truthiness of `issue.satisfaction_rating?.score`. -/
def getScore (i : Issue) : Option String :=
  match i.satisfaction_rating with
  | some s => if s = "" then none else some s
  | none => none

/-- `issue.satisfaction_rating?.score || 'N/A'`. -/
def scoreOrNA (i : Issue) : String := (getScore i).getD "N/A"

/-- `longestToSolveHighPriority` section of the report; the durations
are `Option ℚ` so that `NaN` is representable as `none`. -/
structure LongestToSolve where
  issueId : Nat
  timeToSolveHours : Option ℚ
  timeToSolveDays : Option ℚ
  satisfactionRatingScore : String
deriving Repr, DecidableEq

/-- Assembles the `longestToSolveHighPriority` object from the winning
entry, or the sentinel `{0, 0, 0, "N/A"}` when the filtered set is
empty. -/
def longestToSolveHighPriority (issues : List Issue) : LongestToSolve :=
  match longestEntry issues with
  | some e =>
      { issueId := e.1.id,
        timeToSolveHours := e.2.map (fun ms => jsRound2 ((ms : ℚ) / (1000 * 60 * 60))),
        timeToSolveDays := e.2.map (fun ms => jsRound2 ((ms : ℚ) / (1000 * 60 * 60 * 24))),
        satisfactionRatingScore := scoreOrNA e.1 }
  | none =>
      { issueId := 0,
        timeToSolveHours := some 0,
        timeToSolveDays := some 0,
        satisfactionRatingScore := "N/A" }

/-- The distinct elements of a list in first-encounter order: the key
set, in insertion order, of a JS object populated by a left-to-right
scan (for the non-numeric string keys used here). -/
def dedupFirst (l : List String) : List String :=
  match l with
  | [] => []
  | x :: xs => x :: dedupFirst (xs.filter (fun y => ¬(y = x)))
termination_by l.length
decreasing_by
  simp only [List.length_cons]
  exact Nat.lt_succ_of_le (List.length_filter_le _ xs)

/-- The `issuesByType` record: count of records per lowercased `type`,
keys in first-encounter order. -/
def issuesByType (issues : List Issue) : List (String × Nat) :=
  (dedupFirst (issues.map (fun i => jsToLower i.type))).map
    (fun t => (t, issues.countP (fun i => jsToLower i.type = t)))

/-- The scores pushed for one priority key by the
`satisfactionByPriority` grouping pass, in input order. -/
def scoresFor (p : String) (issues : List Issue) : List String :=
  issues.filterMap (fun i => if jsToLower i.priority = p then getScore i else none)

/-- `Object.keys(scoreCounts).reduce((a, b) => scoreCounts[a] > scoreCounts[b] ? a : b)`:
the most frequent score, scanning distinct scores in first-encounter
order; `none` when there are no scores (the JS code guards this case
with `scores.length > 0`). -/
def mostCommon (scores : List String) : Option String :=
  match dedupFirst scores with
  | [] => none
  | k :: ks => some (ks.foldl (fun a b => if scores.count a > scores.count b then a else b) k)

/-- The `averageSatisfactionByPriority` record: for each lowercased
priority value seen in the data (first-encounter order), the most common
satisfaction score among its scored records; priorities with no scored
records are omitted. -/
def averageSatisfactionByPriority (issues : List Issue) : List (String × String) :=
  (dedupFirst (issues.map (fun i => jsToLower i.priority))).filterMap
    (fun p => (mostCommon (scoresFor p issues)).map (fun m => (p, m)))

/-- `additionalInsights` section of the report. -/
structure AdditionalInsights where
  totalIssues : Nat
  issuesByType : List (String × Nat)
  averageSatisfactionByPriority : List (String × String)
  issuesClosedCount : Nat
  issuesOpenCount : Nat
deriving Repr, DecidableEq

/-- Assembles the `additionalInsights` object. -/
def additionalInsights (issues : List Issue) : AdditionalInsights :=
  { totalIssues := issues.length,
    issuesByType := issuesByType issues,
    averageSatisfactionByPriority := averageSatisfactionByPriority issues,
    issuesClosedCount := (statusCounts issues).closed,
    issuesOpenCount := (statusCounts issues).«open» }

/-- The full `AnalysisResult` JSON body. -/
structure AnalysisResult where
  statusBreakdown : StatusBreakdown
  priorityBreakdown : PriorityBreakdown
  resolutionTimeliness : ResolutionTimeliness
  highPriorityAnalysis : HighPriorityAnalysis
  longestToSolveHighPriority : LongestToSolve
  additionalInsights : AdditionalInsights
deriving Repr, DecidableEq

/-- The whole report computation on a non-empty validated input, with
`now` the evaluation instant sampled once at the start. -/
def analyzeReport (now : Int) (issues : List Issue) : AnalysisResult :=
  { statusBreakdown := statusBreakdown issues,
    priorityBreakdown := priorityBreakdown issues,
    resolutionTimeliness := resolutionTimeliness now issues,
    highPriorityAnalysis := highPriorityAnalysis issues,
    longestToSolveHighPriority := longestToSolveHighPriority issues,
    additionalInsights := additionalInsights issues }

/-- The error taxonomy visible at the endpoint boundary: an absent or
empty `results` sequence is answered with the 404 `'No data found'`
body. -/
inductive ApiError where
  | EmptyDataset
deriving Repr, DecidableEq

/-- The endpoint guard and dispatch: `data.results` missing (`none`) or
of zero length fails with `EmptyDataset` (the 404 response) before any
report computation; otherwise the full report is produced. -/
def analyze (now : Int) : Option (List Issue) → Except ApiError AnalysisResult
  | none => .error .EmptyDataset
  | some issues =>
      if issues.length = 0 then .error .EmptyDataset
      else .ok (analyzeReport now issues)

/-- Concrete record: unresolved high-priority issue due at instant 1. -/
def issueOpenHigh : Issue :=
  ⟨1, some 0, some 0, some 1, "open", "high", "problem", none⟩

/-- Concrete record: high-priority issue closed 2 hours after creation,
well before its due date, rated "good". -/
def issueClosedA : Issue :=
  ⟨2, some 0, some 7200000, some 10000000, "Closed", "High", "problem", some "good"⟩

/-- Concrete record: high-priority issue solved 10 hours after creation,
with no satisfaction rating. -/
def issueClosedB : Issue :=
  ⟨3, some 0, some 36000000, some 10000000, "solved", "high", "question", none⟩

/-- Concrete record: high-priority closed issue whose `created` timestamp
fails to parse. -/
def issueBadDate : Issue :=
  ⟨4, none, some 0, some 0, "closed", "high", "task", none⟩

/-- A record's lowercased status is one of the six recognized values. -/
def recognizedStatus (i : Issue) : Bool :=
  jsToLower i.status = "open" ∨ jsToLower i.status = "closed" ∨
    jsToLower i.status = "pending" ∨ jsToLower i.status = "hold" ∨
    jsToLower i.status = "solved" ∨ jsToLower i.status = "new"

/-- Sum of the six status counters. -/
def statusSum (c : StatusCounts) : Nat :=
  c.«open» + c.closed + c.pending + c.hold + c.solved + c.«new»

/-- A record is resolved: its lowercased status is `closed` or `solved`. -/
def isResolved (i : Issue) : Prop :=
  jsToLower i.status = "closed" ∨ jsToLower i.status = "solved"

/-- A record is unresolved with a recognized status: `open`, `pending`,
`hold` or `new`. -/
def isUnresolvedRecognized (i : Issue) : Prop :=
  jsToLower i.status = "open" ∨ jsToLower i.status = "pending" ∨
    jsToLower i.status = "hold" ∨ jsToLower i.status = "new"

/-- The duration of a record in milliseconds, with the `NaN` case
defaulted to `0`; under the parse hypotheses of the theorems below this
is the actual `updated − created` duration. -/
def durMsD (i : Issue) : Int := (timeDiffMs i).getD 0

theorem bumpStatus_statusSum (c : StatusCounts) (i : Issue) :
    statusSum (bumpStatus c i) = statusSum c + (if recognizedStatus i then 1 else 0) := by
  simp only [bumpStatus, recognizedStatus, statusSum]
  split_ifs <;> simp_all <;> omega

theorem foldl_bumpStatus_statusSum (l : List Issue) (c : StatusCounts) :
    statusSum (l.foldl bumpStatus c) = statusSum c + l.countP (fun i => recognizedStatus i) := by
  induction l generalizing c with
  | nil => simp
  | cons i l ih =>
      simp only [List.foldl_cons, List.countP_cons, ih, bumpStatus_statusSum]
      omega

theorem statusCounts_statusSum (issues : List Issue) :
    statusSum (statusCounts issues) = issues.countP (fun i => recognizedStatus i) := by
  rw [statusCounts, foldl_bumpStatus_statusSum]
  simp [statusSum]

/-- C6: for every non-empty record sequence, the six status counters sum
to at most `totalIssues`, with equality exactly when every record's
lowercased status is one of the six recognized values; unrecognized
statuses are excluded from every counter yet count toward `totalIssues`
(which is the sequence length). -/
theorem statusBreakdown_sum_le_total (issues : List Issue) (_hne : issues ≠ []) :
    (statusBreakdown issues).«open» + (statusBreakdown issues).closed +
        (statusBreakdown issues).pending + (statusBreakdown issues).hold +
        (statusBreakdown issues).solved + (statusBreakdown issues).«new» ≤
      issues.length ∧
    ((statusBreakdown issues).«open» + (statusBreakdown issues).closed +
          (statusBreakdown issues).pending + (statusBreakdown issues).hold +
          (statusBreakdown issues).solved + (statusBreakdown issues).«new» =
        issues.length ↔
      ∀ i ∈ issues, recognizedStatus i) := by
  have hsum : (statusBreakdown issues).«open» + (statusBreakdown issues).closed +
      (statusBreakdown issues).pending + (statusBreakdown issues).hold +
      (statusBreakdown issues).solved + (statusBreakdown issues).«new» =
      issues.countP (fun i => recognizedStatus i) := by
    simpa [statusBreakdown, statusSum] using statusCounts_statusSum issues
  rw [hsum]
  refine ⟨List.countP_le_length _, ?_⟩
  constructor
  · intro h i hi
    exact List.countP_eq_length.mp h i hi
  · intro h
    exact List.countP_eq_length.mpr h

/-- C6 witness at a concrete 2-record input (statuses `open` and
`closed`, both recognized). -/
theorem statusBreakdown_sum_le_total_witness :
    (statusBreakdown [issueOpenHigh, issueBadDate]).«open» +
          (statusBreakdown [issueOpenHigh, issueBadDate]).closed +
          (statusBreakdown [issueOpenHigh, issueBadDate]).pending +
          (statusBreakdown [issueOpenHigh, issueBadDate]).hold +
          (statusBreakdown [issueOpenHigh, issueBadDate]).solved +
          (statusBreakdown [issueOpenHigh, issueBadDate]).«new» ≤ 2 ∧
      ((statusBreakdown [issueOpenHigh, issueBadDate]).«open» +
            (statusBreakdown [issueOpenHigh, issueBadDate]).closed +
            (statusBreakdown [issueOpenHigh, issueBadDate]).pending +
            (statusBreakdown [issueOpenHigh, issueBadDate]).hold +
            (statusBreakdown [issueOpenHigh, issueBadDate]).solved +
            (statusBreakdown [issueOpenHigh, issueBadDate]).«new» = 2 ↔
        ∀ i ∈ [issueOpenHigh, issueBadDate], recognizedStatus i) :=
  statusBreakdown_sum_le_total [issueOpenHigh, issueBadDate] (by decide)

/-- C2: the endpoint fails with `EmptyDataset` (the 404 response) exactly
when the record sequence is missing or empty, and then no report is
produced; on any non-empty sequence it returns the full report, whose
`totalIssues` is the sequence length. -/
theorem analyze_emptyDataset_spec (now : Int) (issuesOpt : Option (List Issue)) :
    (analyze now issuesOpt = .error .EmptyDataset ↔
      issuesOpt = none ∨ issuesOpt = some []) ∧
    (∀ issues : List Issue, issuesOpt = some issues → issues ≠ [] →
      analyze now issuesOpt = .ok (analyzeReport now issues) ∧
        (analyzeReport now issues).additionalInsights.totalIssues = issues.length) := by
  constructor
  · cases issuesOpt with
    | none => simp [analyze]
    | some issues =>
        cases issues with
        | nil => simp [analyze]
        | cons i l => simp [analyze]
  · rintro issues rfl hne
    refine ⟨?_, rfl⟩
    simp [analyze, List.length_eq_zero, hne]

/-- C2 witness: a concrete one-record invocation succeeds with
`totalIssues = 1`. -/
theorem analyze_emptyDataset_spec_witness :
    analyze 0 (some [issueOpenHigh]) = .ok (analyzeReport 0 [issueOpenHigh]) ∧
      (analyzeReport 0 [issueOpenHigh]).additionalInsights.totalIssues = 1 :=
  (analyze_emptyDataset_spec 0 (some [issueOpenHigh])).2 [issueOpenHigh] rfl (by decide)

/-- C4: for every non-empty input, `onTimePercent + overduePercent = 100`
whenever `onTime + overdue > 0` and both are `0` otherwise; the two
resolved percentages are fractions of `onTime + overdue`, while
`currentlyOverduePercent` is a fraction of `totalIssues`. -/
theorem resolutionTimeliness_percent_spec (now : Int) (issues : List Issue)
    (hne : issues ≠ []) :
    (0 < (resolutionTimeliness now issues).onTime + (resolutionTimeliness now issues).overdue →
      (resolutionTimeliness now issues).onTimePercent +
          (resolutionTimeliness now issues).overduePercent = 100) ∧
    ((resolutionTimeliness now issues).onTime + (resolutionTimeliness now issues).overdue = 0 →
      (resolutionTimeliness now issues).onTimePercent = 0 ∧
        (resolutionTimeliness now issues).overduePercent = 0) ∧
    (resolutionTimeliness now issues).onTimePercent =
      (if 0 < (resolutionTimeliness now issues).onTime + (resolutionTimeliness now issues).overdue
        then ((resolutionTimeliness now issues).onTime : ℚ) /
          (((resolutionTimeliness now issues).onTime : ℚ) +
            ((resolutionTimeliness now issues).overdue : ℚ)) * 100
        else 0) ∧
    (resolutionTimeliness now issues).overduePercent =
      (if 0 < (resolutionTimeliness now issues).onTime + (resolutionTimeliness now issues).overdue
        then ((resolutionTimeliness now issues).overdue : ℚ) /
          (((resolutionTimeliness now issues).onTime : ℚ) +
            ((resolutionTimeliness now issues).overdue : ℚ)) * 100
        else 0) ∧
    (resolutionTimeliness now issues).currentlyOverduePercent =
      ((resolutionTimeliness now issues).currentlyOverdue : ℚ) / issues.length * 100 := by
  have hlen : 0 < issues.length := List.length_pos.mpr hne
  simp only [resolutionTimeliness]
  set a := onTimeCount now issues with ha
  set b := overdueCount now issues with hb
  refine ⟨?_, ?_, ?_, ?_, ?_⟩
  · intro hpos
    have : ((a : ℚ) + (b : ℚ)) ≠ 0 := by
      have : (0 : ℚ) < (a : ℚ) + (b : ℚ) := by exact_mod_cast hpos
      linarith
    simp only [if_pos hpos]
    push_cast
    field_simp
    ring
  · intro hz
    simp [hz]
  · split <;> push_cast <;> ring
  · split <;> push_cast <;> ring
  · simp [if_pos hlen]

/-- C4 witness at a concrete one-record input. -/
theorem resolutionTimeliness_percent_spec_witness :
    (0 < (resolutionTimeliness 2 [issueOpenHigh]).onTime +
          (resolutionTimeliness 2 [issueOpenHigh]).overdue →
      (resolutionTimeliness 2 [issueOpenHigh]).onTimePercent +
          (resolutionTimeliness 2 [issueOpenHigh]).overduePercent = 100) ∧
    ((resolutionTimeliness 2 [issueOpenHigh]).onTime +
          (resolutionTimeliness 2 [issueOpenHigh]).overdue = 0 →
      (resolutionTimeliness 2 [issueOpenHigh]).onTimePercent = 0 ∧
        (resolutionTimeliness 2 [issueOpenHigh]).overduePercent = 0) ∧
    (resolutionTimeliness 2 [issueOpenHigh]).onTimePercent =
      (if 0 < (resolutionTimeliness 2 [issueOpenHigh]).onTime +
            (resolutionTimeliness 2 [issueOpenHigh]).overdue
        then ((resolutionTimeliness 2 [issueOpenHigh]).onTime : ℚ) /
          (((resolutionTimeliness 2 [issueOpenHigh]).onTime : ℚ) +
            ((resolutionTimeliness 2 [issueOpenHigh]).overdue : ℚ)) * 100
        else 0) ∧
    (resolutionTimeliness 2 [issueOpenHigh]).overduePercent =
      (if 0 < (resolutionTimeliness 2 [issueOpenHigh]).onTime +
            (resolutionTimeliness 2 [issueOpenHigh]).overdue
        then ((resolutionTimeliness 2 [issueOpenHigh]).overdue : ℚ) /
          (((resolutionTimeliness 2 [issueOpenHigh]).onTime : ℚ) +
            ((resolutionTimeliness 2 [issueOpenHigh]).overdue : ℚ)) * 100
        else 0) ∧
    (resolutionTimeliness 2 [issueOpenHigh]).currentlyOverduePercent =
      ((resolutionTimeliness 2 [issueOpenHigh]).currentlyOverdue : ℚ) / 1 * 100 := by
  have h := resolutionTimeliness_percent_spec 2 [issueOpenHigh] (by decide)
  simpa using h

theorem classifyTimeliness_eq (now : Int) (i : Issue) :
    classifyTimeliness now i =
      if jsToLower i.status = "closed" ∨ jsToLower i.status = "solved" then
        (if jsLe i.updated i.due then .onTime else .overdue)
      else if jsToLower i.status = "open" ∨ jsToLower i.status = "pending" ∨
          jsToLower i.status = "hold" ∨ jsToLower i.status = "new" then
        (if jsGt (some now) i.due then .currentlyOverdue else .uncounted)
      else .uncounted := rfl

theorem timelinessCounts_le_length (now : Int) (l : List Issue) :
    onTimeCount now l + overdueCount now l + currentlyOverdueCount now l ≤ l.length := by
  induction l with
  | nil => simp [onTimeCount, overdueCount, currentlyOverdueCount]
  | cons i t ih =>
      simp only [onTimeCount, overdueCount, currentlyOverdueCount, List.countP_cons,
        List.length_cons] at ih ⊢
      cases h : classifyTimeliness now i <;> simp [h] <;> omega

/-- C3: a resolved record (status `closed`/`solved`) with parseable
`updated`/`due` is counted on-time exactly when `updated ≤ due` and
overdue otherwise; a recognized unresolved record (`open`, `pending`,
`hold`, `new`) is counted currently-overdue exactly when `now > due` and
is otherwise uncounted; unrecognized statuses fall into no branch; and
the three counters absorb each record at most once. -/
theorem classifyTimeliness_spec (now u d : Int) (i : Issue)
    (hu : i.updated = some u) (hd : i.due = some d) :
    (isResolved i →
      (classifyTimeliness now i = .onTime ↔ u ≤ d) ∧
      (classifyTimeliness now i = .overdue ↔ d < u)) ∧
    (isUnresolvedRecognized i →
      (classifyTimeliness now i = .currentlyOverdue ↔ d < now) ∧
      (¬ d < now → classifyTimeliness now i = .uncounted)) ∧
    (¬ isResolved i → ¬ isUnresolvedRecognized i →
      classifyTimeliness now i = .uncounted) ∧
    (∀ l : List Issue,
      onTimeCount now l + overdueCount now l + currentlyOverdueCount now l ≤ l.length) := by
  refine ⟨?_, ?_, ?_, timelinessCounts_le_length now⟩
  · intro hres
    have hres' : jsToLower i.status = "closed" ∨ jsToLower i.status = "solved" := hres
    rw [classifyTimeliness_eq, if_pos hres', hu, hd]
    constructor
    · by_cases h : u ≤ d <;> simp [jsLe, h]
    · by_cases h : u ≤ d <;> simp [jsLe, h] <;> omega
  · intro hunres
    have hres : ¬ (jsToLower i.status = "closed" ∨ jsToLower i.status = "solved") := by
      rcases hunres with h | h | h | h <;> rw [h] <;> decide
    have hunres' : jsToLower i.status = "open" ∨ jsToLower i.status = "pending" ∨
        jsToLower i.status = "hold" ∨ jsToLower i.status = "new" := hunres
    rw [classifyTimeliness_eq, if_neg hres, if_pos hunres', hd]
    constructor
    · by_cases h : d < now <;> simp [jsGt, h]
    · intro h
      simp [jsGt, h]
  · intro h1 h2
    have h1' : ¬ (jsToLower i.status = "closed" ∨ jsToLower i.status = "solved") := h1
    have h2' : ¬ (jsToLower i.status = "open" ∨ jsToLower i.status = "pending" ∨
        jsToLower i.status = "hold" ∨ jsToLower i.status = "new") := h2
    rw [classifyTimeliness_eq, if_neg h1', if_neg h2']

/-- C3 witness at a concrete resolved record (`issueClosedA`, updated at
7,200,000 ms, due at 10,000,000 ms). -/
theorem classifyTimeliness_spec_witness :
    (isResolved issueClosedA →
      (classifyTimeliness 0 issueClosedA = .onTime ↔ (7200000 : Int) ≤ 10000000) ∧
      (classifyTimeliness 0 issueClosedA = .overdue ↔ (10000000 : Int) < 7200000)) ∧
    (isUnresolvedRecognized issueClosedA →
      (classifyTimeliness 0 issueClosedA = .currentlyOverdue ↔ (10000000 : Int) < 0) ∧
      (¬ (10000000 : Int) < 0 → classifyTimeliness 0 issueClosedA = .uncounted)) ∧
    (¬ isResolved issueClosedA → ¬ isUnresolvedRecognized issueClosedA →
      classifyTimeliness 0 issueClosedA = .uncounted) ∧
    (∀ l : List Issue,
      onTimeCount 0 l + overdueCount 0 l + currentlyOverdueCount 0 l ≤ l.length) :=
  classifyTimeliness_spec 0 7200000 10000000 issueClosedA rfl rfl

theorem classifyTimeliness_onTime_independent (n₁ n₂ : Int) (i : Issue) :
    (classifyTimeliness n₁ i = .onTime) = (classifyTimeliness n₂ i = .onTime) := by
  rw [classifyTimeliness_eq, classifyTimeliness_eq]
  split_ifs <;> simp

theorem classifyTimeliness_overdue_independent (n₁ n₂ : Int) (i : Issue) :
    (classifyTimeliness n₁ i = .overdue) = (classifyTimeliness n₂ i = .overdue) := by
  rw [classifyTimeliness_eq, classifyTimeliness_eq]
  split_ifs <;> simp

theorem onTimeCount_independent (n₁ n₂ : Int) (issues : List Issue) :
    onTimeCount n₁ issues = onTimeCount n₂ issues := by
  unfold onTimeCount
  refine List.countP_congr ?_
  intro i _
  simp [decide_eq_decide, classifyTimeliness_onTime_independent n₁ n₂ i]

theorem overdueCount_independent (n₁ n₂ : Int) (issues : List Issue) :
    overdueCount n₁ issues = overdueCount n₂ issues := by
  unfold overdueCount
  refine List.countP_congr ?_
  intro i _
  simp [decide_eq_decide, classifyTimeliness_overdue_independent n₁ n₂ i]

/-- C8 counterexample: the report is not a pure function of the input
sequence alone — the same single-record input analyzed at evaluation
instants 0 and 2 yields different reports (the record's due instant 1
lies between them, flipping `currentlyOverdue`). -/
theorem analyzeReport_not_pure_cex :
    analyzeReport 0 [issueOpenHigh] ≠ analyzeReport 2 [issueOpenHigh] := by
  intro h
  have h2 : (analyzeReport 0 [issueOpenHigh]).resolutionTimeliness.currentlyOverdue =
      (analyzeReport 2 [issueOpenHigh]).resolutionTimeliness.currentlyOverdue :=
    congrArg (fun r => r.resolutionTimeliness.currentlyOverdue) h
  have e1 : (analyzeReport 0 [issueOpenHigh]).resolutionTimeliness.currentlyOverdue = 0 := by
    decide
  have e2 : (analyzeReport 2 [issueOpenHigh]).resolutionTimeliness.currentlyOverdue = 1 := by
    decide
  rw [e1, e2] at h2
  exact absurd h2 (by decide)

/-- C8 (amended): the report is a pure function of the input sequence
together with the evaluation instant; `now` influences the report only
through the `currentlyOverdue` counter, so two invocations on identical
input whose `currentlyOverdue` counts agree produce identical reports in
every field. -/
theorem analyzeReport_pure_spec (issues : List Issue) (n₁ n₂ : Int)
    (h : currentlyOverdueCount n₁ issues = currentlyOverdueCount n₂ issues) :
    analyzeReport n₁ issues = analyzeReport n₂ issues := by
  unfold analyzeReport
  congr 1
  unfold resolutionTimeliness
  rw [onTimeCount_independent n₁ n₂, overdueCount_independent n₁ n₂, h]

/-- C8 amended-claim witness: two invocations at distinct instants 2 and
5 on the same concrete input agree on `currentlyOverdue` and hence
produce identical reports. -/
theorem analyzeReport_pure_spec_witness :
    analyzeReport 2 [issueOpenHigh, issueClosedA] = analyzeReport 5 [issueOpenHigh, issueClosedA] :=
  analyzeReport_pure_spec [issueOpenHigh, issueClosedA] 2 5 (by decide)

theorem jsAdd_none_right (x : Option Int) : jsAdd x none = none := by
  cases x <;> rfl

theorem jsAdd_none_left (x : Option Int) : jsAdd none x = none := by
  cases x <;> rfl

theorem foldl_jsAdd_none (l : List Issue) :
    l.foldl (fun acc i => jsAdd acc (timeDiffMs i)) none = none := by
  induction l with
  | nil => rfl
  | cons i t ih => simp [jsAdd_none_left, ih]

theorem foldl_jsAdd_of_mem_none (l : List Issue) (acc : Option Int)
    (h : ∃ i ∈ l, timeDiffMs i = none) :
    l.foldl (fun acc i => jsAdd acc (timeDiffMs i)) acc = none := by
  induction l generalizing acc with
  | nil => simp at h
  | cons i t ih =>
      rcases h with ⟨j, hj, hnone⟩
      rcases List.mem_cons.mp hj with rfl | hjt
      · simp only [List.foldl_cons, hnone, jsAdd_none_right]
        exact foldl_jsAdd_none t
      · exact ih _ ⟨j, hjt, hnone⟩

theorem totalTimeToClose_none (issues : List Issue)
    (h : ∃ i ∈ highPriorityClosed issues, timeDiffMs i = none) :
    totalTimeToClose issues = none :=
  foldl_jsAdd_of_mem_none _ _ h

/-- C9 counterexample: a single high-priority closed record whose
`created` timestamp fails to parse makes `averageTimeToCloseHours` and
`averageTimeToCloseDays` non-numeric (`NaN`, modelled by `none`): the
engine does not clamp or exclude the bad duration. -/
theorem averageTimeToClose_nan_cex :
    (highPriorityAnalysis [issueBadDate]).averageTimeToCloseHours = none ∧
      (highPriorityAnalysis [issueBadDate]).averageTimeToCloseDays = none := by
  constructor <;> decide

/-- C9 (amended): an unparseable `created`/`updated` timestamp yields a
`NaN` duration, and whenever such a record lies in the high-priority
resolved set the `NaN` propagates through the sum into both reported
averages (nothing is clamped or excluded); the percentage fields, being
ratios of integer counters, stay numeric by construction. -/
theorem averageTimeToClose_nan_spec (issues : List Issue)
    (h : ∃ i ∈ highPriorityClosed issues, timeDiffMs i = none) :
    (highPriorityAnalysis issues).averageTimeToCloseHours = none ∧
      (highPriorityAnalysis issues).averageTimeToCloseDays = none := by
  obtain ⟨i, hi, hnone⟩ := h
  have hlen : 0 < (highPriorityClosed issues).length :=
    List.length_pos.mpr (by rintro he; rw [he] at hi; simp at hi)
  have htot : totalTimeToClose issues = none := totalTimeToClose_none issues ⟨i, hi, hnone⟩
  simp [highPriorityAnalysis, averageTimeToCloseMs, if_pos hlen, htot]

/-- C9 amended-claim witness at the concrete bad-timestamp record. -/
theorem averageTimeToClose_nan_spec_witness :
    (highPriorityAnalysis [issueBadDate, issueClosedA]).averageTimeToCloseHours = none ∧
      (highPriorityAnalysis [issueBadDate, issueClosedA]).averageTimeToCloseDays = none :=
  averageTimeToClose_nan_spec [issueBadDate, issueClosedA]
    ⟨issueBadDate, by decide, by decide⟩

theorem foldl_jsAdd_some (l : List Issue) (h : ∀ i ∈ l, (timeDiffMs i).isSome) (s : Int) :
    l.foldl (fun acc i => jsAdd acc (timeDiffMs i)) (some s) =
      some (s + (l.map durMsD).sum) := by
  induction l generalizing s with
  | nil => simp
  | cons i t ih =>
      obtain ⟨v, hv⟩ := Option.isSome_iff_exists.mp (h i (List.mem_cons_self i t))
      have hadd : jsAdd (some s) (timeDiffMs i) = some (s + v) := by rw [hv]; rfl
      simp only [List.foldl_cons, hadd, List.map_cons, List.sum_cons]
      rw [ih (fun j hj => h j (List.mem_cons_of_mem i hj))]
      simp [durMsD, hv, add_assoc]

theorem totalTimeToClose_some (issues : List Issue)
    (h : ∀ i ∈ highPriorityClosed issues, (timeDiffMs i).isSome) :
    totalTimeToClose issues = some (((highPriorityClosed issues).map durMsD).sum) := by
  rw [totalTimeToClose, foldl_jsAdd_some _ h]
  simp

/-- C5: on any non-empty input whose high-priority resolved records all
have parseable timestamps, `averageTimeToCloseHours`/`Days` are the
arithmetic mean of the `updated − created` durations over the filtered
set, converted to hours (`/ 3,600,000` ms) and further to days (`/ 24`),
each rounded to 2 decimal places; both are exactly `0` when the filtered
set is empty; and `totalClosedHighPriority` is the filtered set's size. -/
theorem highPriorityAnalysis_spec (issues : List Issue) (_hne : issues ≠ [])
    (h : ∀ i ∈ highPriorityClosed issues, (timeDiffMs i).isSome) :
    (highPriorityAnalysis issues).totalClosedHighPriority =
      (highPriorityClosed issues).length ∧
    (highPriorityClosed issues = [] →
      (highPriorityAnalysis issues).averageTimeToCloseHours = some 0 ∧
        (highPriorityAnalysis issues).averageTimeToCloseDays = some 0) ∧
    (highPriorityClosed issues ≠ [] →
      (highPriorityAnalysis issues).averageTimeToCloseHours =
        some (jsRound2 (((((highPriorityClosed issues).map durMsD).sum : ℚ) /
          ((highPriorityClosed issues).length : ℚ)) / 3600000)) ∧
      (highPriorityAnalysis issues).averageTimeToCloseDays =
        some (jsRound2 ((((((highPriorityClosed issues).map durMsD).sum : ℚ) /
          ((highPriorityClosed issues).length : ℚ)) / 3600000) / 24))) := by
  refine ⟨rfl, ?_, ?_⟩
  · intro hempty
    have hlen : ¬ 0 < (highPriorityClosed issues).length := by simp [hempty]
    constructor <;>
      · simp [highPriorityAnalysis, averageTimeToCloseMs, if_neg hlen, jsRound2]
        norm_num
  · intro hne
    have hlen : 0 < (highPriorityClosed issues).length := List.length_pos.mpr hne
    have htot := totalTimeToClose_some issues h
    constructor <;>
      · simp only [highPriorityAnalysis, averageTimeToCloseMs, if_pos hlen, htot,
          Option.map_some]
        norm_num

/-- C5 witness at a concrete two-record filtered set (durations 2h and
10h). -/
theorem highPriorityAnalysis_spec_witness :
    (highPriorityAnalysis [issueClosedA, issueClosedB]).totalClosedHighPriority =
      (highPriorityClosed [issueClosedA, issueClosedB]).length ∧
    (highPriorityClosed [issueClosedA, issueClosedB] = [] →
      (highPriorityAnalysis [issueClosedA, issueClosedB]).averageTimeToCloseHours = some 0 ∧
        (highPriorityAnalysis [issueClosedA, issueClosedB]).averageTimeToCloseDays = some 0) ∧
    (highPriorityClosed [issueClosedA, issueClosedB] ≠ [] →
      (highPriorityAnalysis [issueClosedA, issueClosedB]).averageTimeToCloseHours =
        some (jsRound2 (((((highPriorityClosed [issueClosedA, issueClosedB]).map durMsD).sum : ℚ) /
          ((highPriorityClosed [issueClosedA, issueClosedB]).length : ℚ)) / 3600000)) ∧
      (highPriorityAnalysis [issueClosedA, issueClosedB]).averageTimeToCloseDays =
        some (jsRound2 ((((((highPriorityClosed [issueClosedA, issueClosedB]).map durMsD).sum : ℚ) /
          ((highPriorityClosed [issueClosedA, issueClosedB]).length : ℚ)) / 3600000) / 24))) :=
  highPriorityAnalysis_spec [issueClosedA, issueClosedB] (by decide) (by decide)

theorem dedupFirst_cons (x : String) (xs : List String) :
    dedupFirst (x :: xs) = x :: dedupFirst (xs.filter (fun y => ¬(y = x))) := by
  rw [dedupFirst]

theorem mem_dedupFirst (a : String) (l : List String) : a ∈ dedupFirst l ↔ a ∈ l := by
  induction l using dedupFirst.induct with
  | case1 => simp [dedupFirst]
  | case2 x xs ih =>
      rw [dedupFirst_cons]
      by_cases hax : a = x
      · simp [hax]
      · simp only [decide_not] at ih
        simp [List.mem_cons, hax, ih, List.mem_filter]

theorem nodup_dedupFirst (l : List String) : (dedupFirst l).Nodup := by
  induction l using dedupFirst.induct with
  | case1 => simp [dedupFirst]
  | case2 x xs ih =>
      rw [dedupFirst_cons]
      refine List.nodup_cons.mpr ⟨?_, ih⟩
      intro hmem
      have := (mem_dedupFirst x _).mp hmem
      simp [List.mem_filter] at this

theorem dedupFirst_eq_nil (l : List String) : dedupFirst l = [] ↔ l = [] := by
  cases l with
  | nil => simp [dedupFirst]
  | cons x xs => rw [dedupFirst_cons]; simp

theorem lookup_filterMap_eq (g : String → Option String) (K : List String)
    (hK : K.Nodup) (p : String) :
    (K.filterMap (fun q => (g q).map (fun m => (q, m)))).lookup p =
      if p ∈ K then g p else none := by
  induction K with
  | nil => simp
  | cons q K ih =>
      have hq : q ∉ K := (List.nodup_cons.mp hK).1
      have hK' : K.Nodup := (List.nodup_cons.mp hK).2
      cases hg : g q with
      | none =>
          rw [List.filterMap_cons_none (by simp [hg]), ih hK']
          by_cases hpq : p = q
          · subst hpq
            simp [hq, hg]
          · simp [List.mem_cons, hpq]
      | some m =>
          rw [List.filterMap_cons_some (b := (q, m)) (by simp [hg])]
          by_cases hpq : p = q
          · subst hpq
            simp [List.lookup_cons, hg]
          · rw [List.lookup_cons]
            simp only [beq_false_of_ne hpq]
            rw [ih hK']
            simp [List.mem_cons, hpq]

theorem mostCommon_isSome_iff (xs : List String) : (mostCommon xs).isSome ↔ xs ≠ [] := by
  cases xs with
  | nil => simp [mostCommon, dedupFirst]
  | cons x t =>
      rw [mostCommon, dedupFirst_cons]
      simp

theorem scoresFor_ne_nil_iff (p : String) (issues : List Issue) :
    scoresFor p issues ≠ [] ↔
      ∃ i ∈ issues, jsToLower i.priority = p ∧ (getScore i).isSome := by
  rw [scoresFor, Ne, List.filterMap_eq_nil_iff]
  push_neg
  constructor
  · rintro ⟨i, hi, hne⟩
    by_cases hp : jsToLower i.priority = p
    · rw [if_pos hp] at hne
      exact ⟨i, hi, hp, Option.isSome_iff_ne_none.mpr hne⟩
    · rw [if_neg hp] at hne
      exact absurd rfl hne
  · rintro ⟨i, hi, hp, hsome⟩
    refine ⟨i, hi, ?_⟩
    rw [if_pos hp]
    exact Option.isSome_iff_ne_none.mp hsome

/-- C7: the keys of `averageSatisfactionByPriority` are exactly the
lowercased priority strings occurring in the data that own at least one
scored record (a priority with no scored records is absent, not null),
and each key maps to the most common satisfaction score among that
priority's scored records. -/
theorem averageSatisfactionByPriority_spec (issues : List Issue) (p : String) :
    (averageSatisfactionByPriority issues).lookup p = mostCommon (scoresFor p issues) ∧
    (((averageSatisfactionByPriority issues).lookup p).isSome ↔
      ∃ i ∈ issues, jsToLower i.priority = p ∧ (getScore i).isSome) := by
  have hK : (dedupFirst (issues.map (fun i => jsToLower i.priority))).Nodup :=
    nodup_dedupFirst _
  have hmain : (averageSatisfactionByPriority issues).lookup p =
      mostCommon (scoresFor p issues) := by
    rw [averageSatisfactionByPriority,
      lookup_filterMap_eq (fun q => mostCommon (scoresFor q issues)) _ hK p]
    split_ifs with hmem
    · rfl
    · have hempty : scoresFor p issues = [] := by
        rw [scoresFor, List.filterMap_eq_nil_iff]
        intro i hi
        have hne : jsToLower i.priority ≠ p := fun hp =>
          hmem ((mem_dedupFirst _ _).mpr (List.mem_map.mpr ⟨i, hi, hp⟩))
        simp [hne]
      rw [hempty]
      simp [mostCommon, dedupFirst]
  refine ⟨hmain, ?_⟩
  rw [hmain, mostCommon_isSome_iff, scoresFor_ne_nil_iff]

theorem foldl_mostCommon_spec (c : String → Nat) (ks : List String) (a : String) :
    ks.foldl (fun x y => if c x > c y then x else y) a ∈ a :: ks ∧
    (∀ z ∈ a :: ks, c z ≤ c (ks.foldl (fun x y => if c x > c y then x else y) a)) ∧
    ((a :: ks).filter
        (fun z => c z = c (ks.foldl (fun x y => if c x > c y then x else y) a))).getLast? =
      some (ks.foldl (fun x y => if c x > c y then x else y) a) := by
  induction ks generalizing a with
  | nil =>
      refine ⟨List.mem_singleton.mpr rfl, ?_, ?_⟩
      · intro z hz
        rw [List.mem_singleton.mp hz]
        simp
      · simp
  | cons y ys ih =>
      simp only [List.foldl_cons]
      by_cases hgt : c a > c y
      · simp only [if_pos hgt]
        obtain ⟨hmem, hmax, hlast⟩ := ih a
        refine ⟨?_, ?_, ?_⟩
        · rcases List.mem_cons.mp hmem with h | h
          · exact List.mem_cons.mpr (Or.inl h)
          · exact List.mem_cons.mpr (Or.inr (List.mem_cons.mpr (Or.inr h)))
        · intro z hz
          rcases List.mem_cons.mp hz with rfl | hz'
          · exact hmax z (List.mem_cons_self _ _)
          · rcases List.mem_cons.mp hz' with rfl | hz''
            · exact le_trans (le_of_lt hgt) (hmax a (List.mem_cons_self _ _))
            · exact hmax z (List.mem_cons.mpr (Or.inr hz''))
        · have har : c a ≤ c (ys.foldl (fun x y => if c x > c y then x else y) a) :=
            hmax a (List.mem_cons_self _ _)
          have hyne : ¬ (c y = c (ys.foldl (fun x y => if c x > c y then x else y) a)) := by
            omega
          have hfy : ((y :: ys).filter
              (fun z => c z = c (ys.foldl (fun x y => if c x > c y then x else y) a))) =
              ys.filter
                (fun z => c z = c (ys.foldl (fun x y => if c x > c y then x else y) a)) := by
            rw [List.filter_cons]
            simp [hyne]
          rw [List.filter_cons] at hlast
          rw [List.filter_cons, hfy]
          exact hlast
      · simp only [if_neg hgt]
        obtain ⟨hmem, hmax, hlast⟩ := ih y
        have hay : c a ≤ c y := by omega
        refine ⟨?_, ?_, ?_⟩
        · exact List.mem_cons.mpr (Or.inr hmem)
        · intro z hz
          rcases List.mem_cons.mp hz with rfl | hz'
          · exact le_trans hay (hmax y (List.mem_cons_self _ _))
          · exact hmax z hz'
        · by_cases hPa : c a = c (ys.foldl (fun x y => if c x > c y then x else y) y)
          · cases hM : (y :: ys).filter
                (fun z => c z = c (ys.foldl (fun x y => if c x > c y then x else y) y)) with
            | nil => rw [hM] at hlast; simp at hlast
            | cons b M =>
                have hgoal : ((a :: y :: ys).filter
                    (fun z => c z = c (ys.foldl (fun x y => if c x > c y then x else y) y))) =
                    a :: b :: M := by
                  rw [List.filter_cons, hM]
                  simp [hPa]
                rw [hgoal, List.getLast?_cons_cons, ← hM]
                exact hlast
          · have hgoal : ((a :: y :: ys).filter
                (fun z => c z = c (ys.foldl (fun x y => if c x > c y then x else y) y))) =
                ((y :: ys).filter
                  (fun z => c z = c (ys.foldl (fun x y => if c x > c y then x else y) y))) := by
              rw [List.filter_cons]
              simp [hPa]
            rw [hgoal]
            exact hlast

/-- C10: in the per-priority mode selection, `mostCommon` returns the
score that occurs last, in first-encounter order of distinct scores,
among the scores tied for the greatest frequency (the reduce keeps the
later candidate on equal counts because its comparison is a strict
greater-than on the accumulator's count). -/
theorem mostCommon_tie_keeps_last (scores : List String) :
    mostCommon scores =
      ((dedupFirst scores).filter
        (fun k => (dedupFirst scores).all
          (fun j => scores.count j ≤ scores.count k))).getLast? := by
  cases hd : dedupFirst scores with
  | nil => simp [mostCommon, hd]
  | cons k ks =>
      obtain ⟨hmem, hmax, hlast⟩ :=
        foldl_mostCommon_spec (fun s => scores.count s) ks k
      have hfeq : ((k :: ks).filter
            (fun z => (k :: ks).all (fun j => scores.count j ≤ scores.count z))) =
          ((k :: ks).filter
            (fun z => scores.count z =
              scores.count (ks.foldl
                (fun x y => if scores.count x > scores.count y then x else y) k))) := by
        apply List.filter_congr
        intro z hz
        by_cases hzr : scores.count z =
            scores.count (ks.foldl
              (fun x y => if scores.count x > scores.count y then x else y) k)
        · simp [List.all_eq_true, hzr]
          exact ⟨hmax k (List.mem_cons_self k ks),
            fun x hx => hmax x (List.mem_cons.mpr (Or.inr hx))⟩
        · have hlt : scores.count z <
              scores.count (ks.foldl
                (fun x y => if scores.count x > scores.count y then x else y) k) :=
            lt_of_le_of_ne (hmax z hz) hzr
          simp only [List.all_eq_true, decide_eq_true_eq, hzr, decide_False]
          simp only [List.all_cons, List.all_eq_true, decide_eq_true_eq, Bool.and_eq_false_iff]
          simp only [List.mem_cons, forall_eq_or_imp] at *
          rcases hmem with hr | hr
          · left
            simpa using not_le.mpr (hr ▸ hlt)
          · right
            refine List.all_eq_false.mpr ⟨_, hr, ?_⟩
            simpa using not_le.mpr hlt
      rw [mostCommon, hd, hfeq]
      exact hlast.symm

theorem foldl_longestEntry_some (l : List (Issue × Option Int)) (a : Issue × Option Int) :
    l.foldl (fun longest current =>
        match longest with
        | none => some current
        | some x => some (longerOf x current)) (some a) =
      some (l.foldl longerOf a) := by
  induction l generalizing a with
  | nil => rfl
  | cons p t ih =>
      simp only [List.foldl_cons]
      exact ih (longerOf a p)

theorem foldl_longerOf_spec (xs : List (Issue × Option Int)) (a : Issue × Option Int)
    (ha : a.2.isSome) (hxs : ∀ p ∈ xs, p.2.isSome) :
    xs.foldl longerOf a ∈ a :: xs ∧
    (∀ z ∈ a :: xs, z.2.getD 0 ≤ (xs.foldl longerOf a).2.getD 0) ∧
    ((a :: xs).filter (fun z => z.2.getD 0 = (xs.foldl longerOf a).2.getD 0)).head? =
      some (xs.foldl longerOf a) := by
  induction xs generalizing a with
  | nil =>
      refine ⟨List.mem_singleton.mpr rfl, ?_, ?_⟩
      · intro z hz
        rw [List.mem_singleton.mp hz]
        simp
      · simp
  | cons y ys ih =>
      obtain ⟨va, hva⟩ := Option.isSome_iff_exists.mp ha
      obtain ⟨vy, hvy⟩ := Option.isSome_iff_exists.mp (hxs y (List.mem_cons_self y ys))
      have hys : ∀ p ∈ ys, p.2.isSome := fun p hp => hxs p (List.mem_cons_of_mem y hp)
      simp only [List.foldl_cons]
      by_cases hlt : va < vy
      · have hstep : longerOf a y = y := by
          simp [longerOf, jsGt, hva, hvy, hlt]
        simp only [hstep]
        obtain ⟨hmem, hmax, hhead⟩ := ih y (by simp [hvy]) hys
        refine ⟨?_, ?_, ?_⟩
        · exact List.mem_cons.mpr (Or.inr hmem)
        · intro z hz
          rcases List.mem_cons.mp hz with rfl | hz'
          · have hyr : (vy : Int) ≤ (ys.foldl longerOf y).2.getD 0 := by
              simpa [hvy] using hmax y (List.mem_cons_self y ys)
            simp only [hva, Option.getD_some]
            omega
          · exact hmax z hz'
        · have hyr : (vy : Int) ≤ (ys.foldl longerOf y).2.getD 0 := by
            simpa [hvy] using hmax y (List.mem_cons_self y ys)
          have hane : ¬ (a.2.getD 0 = (ys.foldl longerOf y).2.getD 0) := by
            simp only [hva, Option.getD_some]
            omega
          rw [List.filter_cons]
          simp only [hane, decide_False, Bool.false_eq_true, if_false]
          exact hhead
      · have hstep : longerOf a y = a := by
          simp [longerOf, jsGt, hva, hvy, hlt]
        simp only [hstep]
        obtain ⟨hmem, hmax, hhead⟩ := ih a ha hys
        have hva_le : a.2.getD 0 ≤ (ys.foldl longerOf a).2.getD 0 :=
          hmax a (List.mem_cons_self a ys)
        refine ⟨?_, ?_, ?_⟩
        · rcases List.mem_cons.mp hmem with hr | hr
          · exact List.mem_cons.mpr (Or.inl hr)
          · exact List.mem_cons.mpr (Or.inr (List.mem_cons.mpr (Or.inr hr)))
        · intro z hz
          rcases List.mem_cons.mp hz with rfl | hz'
          · exact hva_le
          · rcases List.mem_cons.mp hz' with rfl | hz''
            · calc z.2.getD 0 = vy := by simp [hvy]
                _ ≤ va := by omega
                _ = a.2.getD 0 := by simp [hva]
                _ ≤ _ := hva_le
            · exact hmax z (List.mem_cons.mpr (Or.inr hz''))
        · by_cases hae : a.2.getD 0 = (ys.foldl longerOf a).2.getD 0
          · have h1 : ((a :: ys).filter
                (fun z => z.2.getD 0 = (ys.foldl longerOf a).2.getD 0)) =
                a :: ys.filter (fun z => z.2.getD 0 = (ys.foldl longerOf a).2.getD 0) := by
              rw [List.filter_cons]
              simp [hae]
            rw [h1, List.head?_cons, Option.some_inj] at hhead
            have h2 : ((a :: y :: ys).filter
                (fun z => z.2.getD 0 = (ys.foldl longerOf a).2.getD 0)) =
                a :: ((y :: ys).filter
                  (fun z => z.2.getD 0 = (ys.foldl longerOf a).2.getD 0)) := by
              rw [List.filter_cons]
              simp [hae]
            rw [h2, List.head?_cons]
            exact congrArg some hhead
          · have hvalt : a.2.getD 0 < (ys.foldl longerOf a).2.getD 0 :=
              lt_of_le_of_ne hva_le hae
            have hyne : ¬ (y.2.getD 0 = (ys.foldl longerOf a).2.getD 0) := by
              have : (y.2.getD 0 : Int) ≤ va := by simp [hvy]; omega
              have hva' : a.2.getD 0 = va := by simp [hva]
              omega
            have h1 : ((a :: ys).filter
                (fun z => z.2.getD 0 = (ys.foldl longerOf a).2.getD 0)) =
                ys.filter (fun z => z.2.getD 0 = (ys.foldl longerOf a).2.getD 0) := by
              rw [List.filter_cons]
              simp [hae]
            rw [h1] at hhead
            have h2 : ((a :: y :: ys).filter
                (fun z => z.2.getD 0 = (ys.foldl longerOf a).2.getD 0)) =
                ys.filter (fun z => z.2.getD 0 = (ys.foldl longerOf a).2.getD 0) := by
              rw [List.filter_cons]
              simp only [hae, decide_False, Bool.false_eq_true, if_false]
              rw [List.filter_cons]
              simp [hyne]
            rw [h2]
            exact hhead

/-- C1: when the high-priority resolved set is non-empty (and its
timestamps parse), `longestToSolveHighPriority` reports the record with
the strictly greatest `updated − created` duration, the first such record
in input order on ties (strict `>` comparison); when the set is empty it
is exactly the sentinel `{issueId := 0, timeToSolveHours := 0,
timeToSolveDays := 0, satisfactionRatingScore := "N/A"}`. -/
theorem longestToSolveHighPriority_spec (issues : List Issue)
    (h : ∀ i ∈ highPriorityClosed issues, (timeDiffMs i).isSome) :
    (highPriorityClosed issues = [] →
      longestToSolveHighPriority issues =
        { issueId := 0, timeToSolveHours := some 0, timeToSolveDays := some 0,
          satisfactionRatingScore := "N/A" }) ∧
    (highPriorityClosed issues ≠ [] →
      ∃ w ∈ highPriorityClosed issues,
        longestEntry issues = some (w, timeDiffMs w) ∧
        longestToSolveHighPriority issues =
          { issueId := w.id,
            timeToSolveHours := some (jsRound2 ((durMsD w : ℚ) / (1000 * 60 * 60))),
            timeToSolveDays := some (jsRound2 ((durMsD w : ℚ) / (1000 * 60 * 60 * 24))),
            satisfactionRatingScore := scoreOrNA w } ∧
        (∀ j ∈ highPriorityClosed issues, durMsD j ≤ durMsD w) ∧
        ((highPriorityClosed issues).filter (fun j => durMsD j = durMsD w)).head? =
          some w) := by
  constructor
  · intro hempty
    have hle : longestEntry issues = none := by
      rw [longestEntry, timeToCloseArray, hempty]
      rfl
    rw [longestToSolveHighPriority, hle]
  · intro hne
    obtain ⟨x, xs, hF⟩ := List.exists_cons_of_ne_nil hne
    have hTA : timeToCloseArray issues =
        (x, timeDiffMs x) :: xs.map (fun i => (i, timeDiffMs i)) := by
      rw [timeToCloseArray, hF]
      simp
    have hLE : longestEntry issues =
        some ((xs.map (fun i => (i, timeDiffMs i))).foldl longerOf (x, timeDiffMs x)) := by
      rw [longestEntry, hTA, List.foldl_cons]
      exact foldl_longestEntry_some _ _
    have hx_mem : x ∈ highPriorityClosed issues := by
      rw [hF]
      exact List.mem_cons_self x xs
    have hax : (x, timeDiffMs x).2.isSome := h x hx_mem
    have hxs' : ∀ p ∈ xs.map (fun i => (i, timeDiffMs i)), p.2.isSome := by
      intro p hp
      obtain ⟨i, hi, rfl⟩ := List.mem_map.mp hp
      exact h i (by rw [hF]; exact List.mem_cons_of_mem x hi)
    obtain ⟨hmem, hmax, hhead⟩ :=
      foldl_longerOf_spec (xs.map (fun i => (i, timeDiffMs i))) (x, timeDiffMs x) hax hxs'
    have hr_mem : (xs.map (fun i => (i, timeDiffMs i))).foldl longerOf (x, timeDiffMs x) ∈
        timeToCloseArray issues := by
      rw [hTA]
      exact hmem
    have hr_pair : ∃ w ∈ highPriorityClosed issues,
        (xs.map (fun i => (i, timeDiffMs i))).foldl longerOf (x, timeDiffMs x) =
          (w, timeDiffMs w) := by
      rw [timeToCloseArray] at hr_mem
      obtain ⟨w, hw, hweq⟩ := List.mem_map.mp hr_mem
      exact ⟨w, hw, hweq.symm⟩
    obtain ⟨w, hwmem, hweq⟩ := hr_pair
    refine ⟨w, hwmem, ?_, ?_, ?_, ?_⟩
    · rw [hLE, hweq]
    · obtain ⟨vw, hvw⟩ := Option.isSome_iff_exists.mp (h w hwmem)
      rw [longestToSolveHighPriority, hLE, hweq]
      simp [hvw, durMsD]
    · intro j hj
      have hjmem : (j, timeDiffMs j) ∈ (x, timeDiffMs x) ::
          xs.map (fun i => (i, timeDiffMs i)) := by
        rw [← hTA, timeToCloseArray]
        exact List.mem_map.mpr ⟨j, hj, rfl⟩
      have := hmax (j, timeDiffMs j) hjmem
      rw [hweq] at this
      simpa [durMsD] using this
    · have hmapeq : ((x, timeDiffMs x) :: xs.map (fun i => (i, timeDiffMs i))) =
          (highPriorityClosed issues).map (fun i => (i, timeDiffMs i)) := by
        rw [hF]
        simp
      rw [hmapeq, hweq] at hhead
      rw [List.filter_map, List.head?_map] at hhead
      obtain ⟨w', hw'head, hw'eq⟩ := Option.map_eq_some'.mp hhead
      have hw'w : w' = w := congrArg Prod.fst hw'eq
      rw [hw'w] at hw'head
      have hpred : ∀ j ∈ highPriorityClosed issues,
          ((fun z : Issue × Option Int =>
              decide (z.2.getD 0 = (timeDiffMs w).getD 0)) ∘
            (fun i => (i, timeDiffMs i))) j =
            decide (durMsD j = durMsD w) := by
        intro j _
        simp [durMsD, Function.comp]
      rw [List.filter_congr hpred] at hw'head
      exact hw'head

/-- C1 witness: on the concrete two-record filtered set (durations 2h
and 10h) the non-empty branch of the selection theorem applies. -/
theorem longestToSolveHighPriority_spec_witness :
    ∃ w ∈ highPriorityClosed [issueClosedA, issueClosedB],
      longestEntry [issueClosedA, issueClosedB] = some (w, timeDiffMs w) ∧
      longestToSolveHighPriority [issueClosedA, issueClosedB] =
        { issueId := w.id,
          timeToSolveHours := some (jsRound2 ((durMsD w : ℚ) / (1000 * 60 * 60))),
          timeToSolveDays := some (jsRound2 ((durMsD w : ℚ) / (1000 * 60 * 60 * 24))),
          satisfactionRatingScore := scoreOrNA w } ∧
      (∀ j ∈ highPriorityClosed [issueClosedA, issueClosedB], durMsD j ≤ durMsD w) ∧
      ((highPriorityClosed [issueClosedA, issueClosedB]).filter
        (fun j => durMsD j = durMsD w)).head? = some w :=
  (longestToSolveHighPriority_spec [issueClosedA, issueClosedB] (by decide)).2 (by decide)
